import Mathlib

/-!
# meetin: the scheduling loop, the event scan and the calendar filter

A shallow embedding of `runLoop` (src/main.go), `Calendar.GetEvents`
(src/calendar.go) and `HomeAssistant.CallService` (src/homeassistant.go).

Instants (`time.Time`) are integers counting nanoseconds since Go's zero time
(January 1, year 1, 00:00:00 UTC), the origin `Time.Round` works from.
Durations (`time.Duration`) are integers counting nanoseconds; the two places
where the 64-bit representation is visible (`Time.Sub` saturates, the
subtraction of two durations wraps) are modelled explicitly. Both are written
`Int` throughout; the doc comments say which is which.
-/

namespace Meetin

/-! ## Time -/

def Second : Int := 1000000000

def Minute : Int := 60 * Second

def Hour : Int := 60 * Minute

/-- The largest `time.Duration`, `1<<63 - 1`. -/
def maxDuration : Int := 9223372036854775807

/-- The smallest `time.Duration`, `-1 << 63`. -/
def minDuration : Int := -9223372036854775808

/-- Two's complement wrap-around of an int64 result. -/
def wrap64 (x : Int) : Int := (x + 9223372036854775808) % 18446744073709551616 - 9223372036854775808

/-- The instant `t.Add(d)`. -/
def Time.Add (t : Int) (d : Int) : Int := t + d

/-- The test `t.Before(u)`. -/
def Time.Before (t u : Int) : Bool := decide (t < u)

/-- The duration `t.Sub(u)`: the difference, saturated to the range of a `Duration`. -/
def Time.Sub (t u : Int) : Int :=
  if t - u > maxDuration then maxDuration
  else if t - u < minDuration then minDuration
  else t - u

/-- The remainder part of `div` of package time: the remainder of the instant by `d`,
in `[0, d)` for negative instants as well. -/
def div (t : Int) (d : Int) : Int := t % d

/-- The test `lessThanHalf(x, y)` of package time: `x + x < y`. -/
def lessThanHalf (x y : Int) : Bool := decide (x + x < y)

/-- The instant `t.Round(d)`: the nearest multiple of `d` since the zero time, halfway
values rounding up; `t` itself when `d <= 0`. -/
def Time.Round (t : Int) (d : Int) : Int :=
  if d ≤ 0 then t
  else
    let r := div t d
    if lessThanHalf r d then Time.Add t (-r) else Time.Add t (d - r)

/-- The targeted boundary of `runLoop` (main.go, lines 117-120). -/
def nextRounded (now : Int) : Int :=
  let r := Time.Round now (30 * Minute)
  if Time.Before r now then Time.Add r (30 * Minute) else r

/-- The early instant of `runLoop` (main.go, line 121). -/
def nextEarly (now : Int) : Int := Time.Add (nextRounded now) (-10 * Second)

/-- The clock reading `h:m:s` on day `day` (days counted from the zero time). -/
def clockAt (day h m s : Int) : Int := (((day * 24 + h) * 60 + m) * 60 + s) * Second

/-! ## Calendar events -/

/-- The simplified calendar event of calendar.go. -/
structure Event where
  summary : String
  status : String
  start : Int
  end_ : Int
deriving DecidableEq, Repr

/-- The `Start` and `End` members of an item of the calendar API: the
date-time text, empty for an all day event. -/
structure EventDateTime where
  DateTime : String
deriving DecidableEq, Repr

/-- An item of `events.Items`, as answered by the calendar API. -/
structure CalendarEvent where
  Summary : String
  Status : String
  Start : EventDateTime
  End : EventDateTime
deriving DecidableEq, Repr

def retrieveMsg : String := "unable to retrieve next ten of the user\x27s events: "

/-- The loop over `events.Items` in `GetEvents` (calendar.go, lines 76-100);
`parse` stands for `time.Parse(time.RFC3339, _)`, and the result is the pair
`(out, err)` the function returns. -/
def GetEvents.items (parse : String → Except String Int) :
    List CalendarEvent → List Event → List Event × Option String
  | [], out => (out, none)
  | item :: rest, out =>
    if item.Status = "cancelled" then GetEvents.items parse rest out
    else if item.Start.DateTime = "" then GetEvents.items parse rest out
    else
      match parse item.Start.DateTime with
      | .error err => (out, some err)
      | .ok s =>
        match parse item.End.DateTime with
        | .error err => (out, some err)
        | .ok e =>
          GetEvents.items parse rest
            (out ++ [{ summary := item.Summary, status := item.Status, start := s, end_ := e }])

/-- The body of `GetEvents` after the API call (calendar.go, lines 71-100):
`resp` is what `Events.List(id)...Do()` answered. -/
def GetEvents.result (parse : String → Except String Int)
    (resp : Except String (List CalendarEvent)) : List Event × Option String :=
  match resp with
  | .error err => ([], some (retrieveMsg ++ err))
  | .ok items => GetEvents.items parse items []

/-- The claim's reading of `GetEvents`, to compare with `GetEvents.items`:
an item is retained when its status is not "cancelled" and its start date-time
is not empty. -/
def retained (item : CalendarEvent) : Bool :=
  decide (item.Status ≠ "cancelled") && decide (item.Start.DateTime ≠ "")

/-- The instant a text parses to, the zero time when it does not parse. -/
def parsed (parse : String → Except String Int) (text : String) : Int :=
  match parse text with
  | .ok t => t
  | .error _ => 0

/-- The claim's reading of `GetEvents`, to compare with `GetEvents.items`:
the retained items in their order, with summary, status, start and end copied. -/
def retainedEvents (parse : String → Except String Int) (items : List CalendarEvent) :
    List Event :=
  (items.filter retained).map fun item =>
    { summary := item.Summary, status := item.Status,
      start := parsed parse item.Start.DateTime, end_ := parsed parse item.End.DateTime }

/-- A toy reading of a few date-time texts, for the examples. -/
def parseExample (text : String) : Except String Int :=
  if text = "0001-01-01T14:30:00Z" then .ok (clockAt 0 14 30 0)
  else if text = "0001-01-01T14:00:00Z" then .ok (clockAt 0 14 0 0)
  else if text = "0001-01-01T14:50:00Z" then .ok (clockAt 0 14 50 0)
  else if text = "0001-01-01T15:00:00Z" then .ok (clockAt 0 15 0 0)
  else if text = "0001-01-01T16:00:00Z" then .ok (clockAt 0 16 0 0)
  else .error "parsing time"

/-! ## The selection scan -/

/-- The scan of `runLoop` (main.go, lines 161-169), from the current values of
`max` and `end`. -/
def scan : List Event → Int → Int → Int × Int
  | [], max, end_ => (max, end_)
  | item :: rest, max, end_ =>
    let d := Time.Sub item.end_ item.start
    if d > max ∧ d ≤ Hour then scan rest d item.end_ else scan rest max end_

/-- The scan started as the source does: `var max time.Duration`, `var end time.Time`. -/
def selectEvent (events : List Event) : Int × Int := scan events 0 0

/-- The effect label (main.go, lines 175-178). -/
def label (max : Int) : String := if max > 30 * Minute then "60m" else "30m"

/-! ## Actuator payloads -/

/-- A value of a `map[string]interface{}` payload. -/
inductive Value where
  | str (s : String)
  | int (n : Int)
deriving DecidableEq, Repr

/-- The assignment `m[k] = v` on a payload kept as an association list. -/
def setKey : List (String × Value) → String → Value → List (String × Value)
  | [], k, v => [(k, v)]
  | (k', v') :: rest, k, v => if k' = k then (k, v) :: rest else (k', v') :: setKey rest k v

def dataOff : List (String × Value) := [("entity_id", .str "light.meetin_ring")]

/-- The initial value of `data` (main.go, lines 104-107). -/
def dataInit : List (String × Value) :=
  [("entity_id", .str "light.meetin_ring"), ("brightness", .int 128)]

/-- The payload sent with `light/turn_on` for the effect `l`. -/
def dataOn (l : String) : List (String × Value) :=
  [("entity_id", .str "light.meetin_ring"), ("brightness", .int 128), ("effect", .str l)]

/-! ## The world around the loop -/

/-- What the loop does not control. Collaborator calls are numbered in the
order they are made; the `k`-th one takes `latency k` nanoseconds. -/
structure Env where
  /-- the instant the context is cancelled, if it ever is -/
  cancelAt : Option Int
  /-- answer of `Events.List(id).TimeMin(t1).TimeMax(t2)...Do()` as call `k` -/
  eventsList : Nat → String → Int → Int → Except String (List CalendarEvent)
  /-- error of `postJSON("services/" + action, in, _)` as call `k` -/
  postJSON : Nat → String → List (String × Value) → Option String
  latency : Nat → Nat
  /-- the function `time.Parse(time.RFC3339, _)` -/
  parse : String → Except String Int

/-- The local state of `runLoop` together with the wall clock. -/
structure State where
  clock : Int
  calls : Nat
  data : List (String × Value)
deriving DecidableEq, Repr

/-- What an observer of a run sees, in order. -/
inductive Entry where
  /-- a `select` between `ctx.Done()` and `time.After(d)`, entered at `t`, left at `wake` -/
  | selectWait (t d wake : Int)
  /-- a `time.Sleep(d)` entered at `t` -/
  | sleep (t d : Int)
  /-- a test of `ctx.Err()` at `t`; `cancelled` when it is not nil -/
  | ctxErr (t : Int) (cancelled : Bool)
  /-- a call of `c.GetEvents(ctx, start, d, id)` at `t` -/
  | getEvents (t start d : Int) (id : String)
  /-- a call of `ha.CallService(action, data)` at `t` -/
  | callService (t : Int) (action : String) (data : List (String × Value))
deriving DecidableEq, Repr

/-- How the body of the loop is left. -/
inductive Flow where
  /-- a `continue`, or the end of the body -/
  | next (s : State)
  /-- a `break` -/
  | brk (s : State)
  /-- a `return err` -/
  | ret (err : String)
deriving DecidableEq, Repr

/-- How far a run got. -/
inductive Outcome where
  /-- the function returned `err` (`none` is `nil`) -/
  | returned (err : Option String)
  /-- the loop is still iterating when the observation stops -/
  | running
deriving DecidableEq, Repr

/-- Whether `ctx.Err() != nil` at instant `t`. -/
def cancelled (env : Env) (t : Int) : Bool :=
  match env.cancelAt with
  | some c => decide (c ≤ t)
  | none => false

/-- The instant a `select` between `ctx.Done()` and `time.After(d)` entered at
`now` returns: at once when the context is already cancelled, at the
cancellation when it comes before the timer, with the timer otherwise. -/
def selectWake (env : Env) (now d : Int) : Int :=
  match env.cancelAt with
  | some c => if c < now + d then (if c ≤ now then now else c) else now + d
  | none => now + d

/-- The guarded wait `if d > 0 { select { ... } }` of `runLoop`. -/
def awaitDone (env : Env) (s : State) (d : Int) : List Entry × State :=
  if d > 0 then
    ([.selectWait s.clock d (selectWake env s.clock d)],
      { s with clock := selectWake env s.clock d })
  else ([], s)

/-- The call `ha.CallService(action, in)` (homeassistant.go, lines 43-51). -/
def CallService (env : Env) (s : State) (action : String) (input : List (String × Value)) :
    Entry × Option String × State :=
  (.callService s.clock action input, env.postJSON s.calls action input,
    { s with clock := s.clock + env.latency s.calls, calls := s.calls + 1 })

/-- The call `c.GetEvents(ctx, start, d, id)` (calendar.go, lines 66-101). -/
def GetEvents (env : Env) (s : State) (start d : Int) (id : String) :
    Entry × (List Event × Option String) × State :=
  (.getEvents s.clock start d id,
    GetEvents.result env.parse (env.eventsList s.calls id start (Time.Add start d)),
    { s with clock := s.clock + env.latency s.calls, calls := s.calls + 1 })

/-! ## The loop -/

/-- Lines 190-201 of main.go: the wait for the end of the meeting. -/
def holdPhase (env : Env) (s : State) (end_ : Int) : List Entry × Flow :=
  let w := awaitDone env s (wrap64 (Time.Sub end_ s.clock - 10 * Second))
  if cancelled env w.2.clock then (w.1 ++ [.ctxErr w.2.clock true], .brk w.2)
  else (w.1 ++ [.ctxErr w.2.clock false], .next w.2)

/-- Lines 158-188 of main.go: the scan, the skip, the two commands. -/
def signalPhase (env : Env) (s : State) (events : List Event) : List Entry × Flow :=
  let sel := selectEvent events
  if sel.1 = 0 then
    ([.sleep s.clock (11 * Second)], .next { s with clock := s.clock + 11 * Second })
  else
    let off := CallService env s "light/turn_off" dataOff
    match off.2.1 with
    | some err => ([off.1], .ret err)
    | none =>
      let s1 : State := { off.2.2 with data := setKey off.2.2.data "effect" (.str (label sel.1)) }
      let lit := CallService env s1 "light/turn_on" s1.data
      match lit.2.1 with
      | some err => ([off.1, lit.1], .ret err)
      | none =>
        let h := holdPhase env lit.2.2 sel.2
        (off.1 :: lit.1 :: h.1, h.2)

/-- Lines 145-156 of main.go: the last wait to align on the boundary. -/
def boundaryPhase (env : Env) (s : State) (boundary : Int) (events : List Event) :
    List Entry × Flow :=
  let w := awaitDone env s (Time.Sub boundary s.clock)
  if cancelled env w.2.clock then (w.1 ++ [.ctxErr w.2.clock true], .brk w.2)
  else
    let r := signalPhase env w.2 events
    (w.1 ++ .ctxErr w.2.clock false :: r.1, r.2)

/-- Lines 134-143 of main.go: the query of the calendar. -/
def pollPhase (env : Env) (cid : String) (s : State) (boundary : Int) : List Entry × Flow :=
  let q := GetEvents env s boundary Second cid
  match q.2.1.2 with
  | some err => ([q.1], .ret err)
  | none =>
    if q.2.1.1.length = 0 then ([q.1], .next q.2.2)
    else
      let r := boundaryPhase env q.2.2 boundary q.2.1.1
      (q.1 :: r.1, r.2)

/-- One pass through the body of the loop (main.go, lines 112-201), entered
with the clock reading `s.clock`. -/
def iteration (env : Env) (cid : String) (s : State) : List Entry × Flow :=
  let w := awaitDone env s (Time.Sub (nextEarly s.clock) s.clock)
  if cancelled env w.2.clock then (w.1 ++ [.ctxErr w.2.clock true], .brk w.2)
  else
    let r := pollPhase env cid w.2 (nextRounded s.clock)
    (w.1 ++ .ctxErr w.2.clock false :: r.1, r.2)

/-- Lines 203-207 of main.go: the command after the loop. -/
def finish (env : Env) (s : State) : List Entry × Outcome :=
  let off := CallService env s "light/turn_off" dataOff
  ([off.1], .returned off.2.1)

/-- The `for ctx.Err() == nil` loop and what follows it, observed for at most
`fuel` passes. -/
def loop (env : Env) (cid : String) : Nat → State → List Entry × Outcome
  | 0, _ => ([], .running)
  | fuel + 1, s =>
    if cancelled env s.clock then
      (.ctxErr s.clock true :: (finish env s).1, (finish env s).2)
    else
      match iteration env cid s with
      | (tr, .next s') =>
        (.ctxErr s.clock false :: tr ++ (loop env cid fuel s').1, (loop env cid fuel s').2)
      | (tr, .brk s') => (.ctxErr s.clock false :: tr ++ (finish env s').1, (finish env s').2)
      | (tr, .ret err) => (.ctxErr s.clock false :: tr, .returned (some err))

/-- The run of `runLoop(ctx, ha, c, cid)` started when the clock reads `start`. -/
def runLoop (env : Env) (cid : String) (fuel : Nat) (start : Int) : List Entry × Outcome :=
  let off := CallService env { clock := start, calls := 0, data := dataInit } "light/turn_off" dataOff
  match off.2.1 with
  | some err => ([off.1], .returned (some err))
  | none => (off.1 :: (loop env cid fuel off.2.2).1, (loop env cid fuel off.2.2).2)

/-- The actuator commands of a trace, as `(action, payload)` pairs. -/
def commands : List Entry → List (String × List (String × Value))
  | [] => []
  | .callService _ action data :: rest => (action, data) :: commands rest
  | _ :: rest => commands rest

/-- The boundaries queried in a trace. -/
def queries : List Entry → List Int
  | [] => []
  | .getEvents _ start _ _ :: rest => start :: queries rest
  | _ :: rest => queries rest

/-! ## Example worlds -/

/-- A confirmed item of the calendar with the given start and end texts. -/
def rawMeeting (start end_ : String) : CalendarEvent :=
  ⟨"meeting", "confirmed", ⟨start⟩, ⟨end_⟩⟩

/-- Nothing in the calendar, no cancellation, every call takes one second. -/
def envQuiet : Env :=
  { cancelAt := none
    eventsList := fun _ _ _ _ => .ok []
    postJSON := fun _ _ _ => none
    latency := fun _ => 1000000000
    parse := parseExample }

/-- One meeting from 14:30 to 16:00; the context is cancelled at 14:30:03. -/
def envLong : Env :=
  { cancelAt := some (clockAt 0 14 30 3)
    eventsList := fun _ _ _ _ => .ok [rawMeeting "0001-01-01T14:30:00Z" "0001-01-01T16:00:00Z"]
    postJSON := fun _ _ _ => none
    latency := fun _ => 1000000000
    parse := parseExample }

/-- One meeting from 14:00 to 15:00, under way at the boundary 14:30; the
context is cancelled at 14:40:00. -/
def envRunning : Env :=
  { cancelAt := some (clockAt 0 14 40 0)
    eventsList := fun _ _ _ _ => .ok [rawMeeting "0001-01-01T14:00:00Z" "0001-01-01T15:00:00Z"]
    postJSON := fun _ _ _ => none
    latency := fun _ => 1000000000
    parse := parseExample }

/-- One meeting from 14:30 to 14:50; the third collaborator call, the
`light/turn_off` that precedes `light/turn_on`, fails. -/
def envFail : Env :=
  { cancelAt := none
    eventsList := fun _ _ _ _ => .ok [rawMeeting "0001-01-01T14:30:00Z" "0001-01-01T14:50:00Z"]
    postJSON := fun k _ _ => if k = 2 then some "connection refused" else none
    latency := fun _ => 1000000000
    parse := parseExample }

/-- One meeting from 14:30 to 14:50; the context is cancelled at 14:40:00. -/
def envMeeting : Env :=
  { cancelAt := some (clockAt 0 14 40 0)
    eventsList := fun _ _ _ _ => .ok [rawMeeting "0001-01-01T14:30:00Z" "0001-01-01T14:50:00Z"]
    postJSON := fun _ _ _ => none
    latency := fun _ => 1000000000
    parse := parseExample }

/-! ## Predicates on traces -/

/-- The number of collaborator calls (calendar and actuator) in a trace. -/
def collabCalls : List Entry → Nat
  | [] => 0
  | .getEvents _ _ _ _ :: rest => collabCalls rest + 1
  | .callService _ _ _ :: rest => collabCalls rest + 1
  | _ :: rest => collabCalls rest

/-- An entry that records an observed cancellation. -/
def isCancel : Entry → Bool
  | .ctxErr _ true => true
  | _ => false

/-- No cancellation is observed in the trace. -/
def noCancel (tr : List Entry) : Prop := ∀ e ∈ tr, isCancel e = false

/-- Every wait of the trace returns when `selectWake` says and is followed by a
test of `ctx.Err()` at that instant; every test of `ctx.Err()` reports whether
the context is cancelled at the instant of the test. -/
def wfTrace (env : Env) : List Entry → Prop
  | [] => True
  | .selectWait t d w :: rest =>
    w = selectWake env t d ∧ (∃ rest', rest = .ctxErr w (cancelled env w) :: rest') ∧
      wfTrace env rest
  | .ctxErr t b :: rest => b = cancelled env t ∧ wfTrace env rest
  | .sleep _ _ :: rest => wfTrace env rest
  | .getEvents _ _ _ _ :: rest => wfTrace env rest
  | .callService _ _ _ :: rest => wfTrace env rest

/-- The payload is one `runLoop` can hold in `data`. -/
def goodData (s : State) : Prop :=
  s.data = dataInit ∨ s.data = dataOn "30m" ∨ s.data = dataOn "60m"

/-- What a trace and the way the loop body is left have to satisfy, for a body
entered after `calls` collaborator calls. -/
def FlowOK (calls : Nat) (tr : List Entry) : Flow → Prop
  | .next s => noCancel tr ∧ goodData s ∧ s.calls = calls + collabCalls tr
  | .brk s =>
    (∃ tr0, tr = tr0 ++ [.ctxErr s.clock true] ∧ noCancel tr0) ∧ goodData s ∧
      s.calls = calls + collabCalls tr
  | .ret _ => noCancel tr

/-- The commands of one pass through the loop body. -/
def CmdsOK (tr : List Entry) : Prop :=
  commands tr = [] ∨ commands tr = [("light/turn_off", dataOff)] ∨
    ∃ l, (l = "30m" ∨ l = "60m") ∧
      commands tr = [("light/turn_off", dataOff), ("light/turn_on", dataOn l)]

/-- In a list of commands every `light/turn_on` comes right after a
`light/turn_off` and carries one of the two effect labels. -/
def Adjacent (cmds : List (String × List (String × Value))) : Prop :=
  ∀ pre p post, cmds = pre ++ ("light/turn_on", p) :: post →
    (∃ pre', pre = pre' ++ [("light/turn_off", dataOff)]) ∧
      (p = dataOn "30m" ∨ p = dataOn "60m")

/-- How a trace stands to the observation of a cancellation: none is observed,
or one is, followed by a single `light/turn_off` whose result is returned. -/
def CancelShape (env : Env) (calls : Nat) (r : List Entry × Outcome) : Prop :=
  noCancel r.1 ∨
  ∃ tr0 t, r.1 = tr0 ++ [.ctxErr t true, .callService t "light/turn_off" dataOff] ∧
    noCancel tr0 ∧
    r.2 = .returned (env.postJSON (calls + collabCalls tr0) "light/turn_off" dataOff)

/-! ## Lemmas on the scan -/

theorem Hour_eq : Hour = 3600000000000 := by norm_num [Hour, Minute, Second]

/-- Inside the window the scan looks at, the saturation of `Time.Sub` is not
visible. -/
theorem Time.Sub_window (a b m : Int) (hm : 0 ≤ m) :
    (Time.Sub a b > m ∧ Time.Sub a b ≤ Hour) ↔ (a - b > m ∧ a - b ≤ Hour) := by
  rw [Hour_eq]
  unfold Time.Sub maxDuration minDuration
  split_ifs <;> constructor <;> intro h <;> omega

theorem Time.Sub_of_window (a b m : Int) (hm : 0 ≤ m)
    (h : Time.Sub a b > m ∧ Time.Sub a b ≤ Hour) : Time.Sub a b = a - b := by
  rw [Hour_eq] at h
  revert h
  unfold Time.Sub maxDuration minDuration
  split_ifs <;> intro h <;> omega

/-- What the scan returns from the running values `m` (at most the cap) and `e`. -/
theorem scan_spec (events : List Event) : ∀ (m e : Int), 0 ≤ m → m ≤ Hour →
    m ≤ (scan events m e).1 ∧ (scan events m e).1 ≤ Hour ∧
    (∀ x ∈ events, m < x.end_ - x.start → x.end_ - x.start ≤ Hour →
      x.end_ - x.start ≤ (scan events m e).1) ∧
    ((scan events m e).1 = m → (scan events m e).2 = e) ∧
    (m < (scan events m e).1 → ∃ pre x post, events = pre ++ x :: post ∧
      x.end_ - x.start = (scan events m e).1 ∧ x.end_ = (scan events m e).2 ∧
      ∀ y ∈ pre, y.end_ - y.start ≠ (scan events m e).1) := by
  induction events with
  | nil =>
    intro m e _ h1
    simp [scan, h1]
  | cons item rest ih =>
    intro m e h0 h1
    simp only [scan]
    by_cases hc : Time.Sub item.end_ item.start > m ∧ Time.Sub item.end_ item.start ≤ Hour
    · rw [if_pos hc]
      have hd := Time.Sub_of_window _ _ m h0 hc
      obtain ⟨i1, i2, i3, i4, i5⟩ :=
        ih (Time.Sub item.end_ item.start) item.end_ (by omega) hc.2
      refine ⟨by omega, i2, ?_, ?_, ?_⟩
      · intro x hx hx1 hx2
        rcases List.mem_cons.1 hx with rfl | hx
        · omega
        · by_cases hlt : Time.Sub item.end_ item.start < x.end_ - x.start
          · exact i3 x hx hlt hx2
          · omega
      · intro h
        omega
      · intro _
        by_cases heq : (scan rest (Time.Sub item.end_ item.start) item.end_).1 =
            Time.Sub item.end_ item.start
        · refine ⟨[], item, rest, rfl, ?_, (i4 heq).symm, ?_⟩
          · omega
          · intro y hy
            cases hy
        · obtain ⟨pre, x, post, h1, h2, h3, h4⟩ := i5 (by omega)
          refine ⟨item :: pre, x, post, by rw [h1]; rfl, h2, h3, ?_⟩
          intro y hy
          rcases List.mem_cons.1 hy with rfl | hy
          · omega
          · exact h4 y hy
    · rw [if_neg hc]
      have hc2 := (not_congr (Time.Sub_window item.end_ item.start m h0)).1 hc
      obtain ⟨i1, i2, i3, i4, i5⟩ := ih m e h0 h1
      refine ⟨i1, i2, ?_, i4, ?_⟩
      · intro x hx hx1 hx2
        rcases List.mem_cons.1 hx with rfl | hx
        · exact absurd ⟨hx1, hx2⟩ hc2
        · exact i3 x hx hx1 hx2
      · intro hlt
        obtain ⟨pre, x, post, h1, h2, h3, h4⟩ := i5 hlt
        refine ⟨item :: pre, x, post, by rw [h1]; rfl, h2, h3, ?_⟩
        intro y hy
        rcases List.mem_cons.1 hy with rfl | hy
        · intro hy2
          exact hc2 ⟨by omega, by omega⟩
        · exact h4 y hy

theorem Time.Sub_add (t c : Int) (h1 : minDuration ≤ c) (h2 : c ≤ maxDuration) :
    Time.Sub (t + c) t = c := by
  revert h1 h2
  unfold Time.Sub maxDuration minDuration
  intro h1 h2
  split_ifs <;> omega

/-- The scan of a single event lasting `c`, for `c` in the range of a `Duration`. -/
theorem selectEvent_single (summary status : String) (t c : Int)
    (h1 : minDuration ≤ c) (h2 : c ≤ maxDuration) :
    selectEvent [⟨summary, status, t, t + c⟩] =
      if c > 0 ∧ c ≤ Hour then (c, t + c) else (0, 0) := by
  simp only [selectEvent, scan, Time.Sub_add t c h1 h2]

/-! ## Lemmas on the filter of `GetEvents` -/

theorem GetEvents.items_spec (parse : String → Except String Int) (items : List CalendarEvent) :
    ∀ out : List Event,
    (∀ item ∈ items, retained item = true →
      (∃ t, parse item.Start.DateTime = .ok t) ∧ (∃ t, parse item.End.DateTime = .ok t)) →
    GetEvents.items parse items out = (out ++ retainedEvents parse items, none) := by
  induction items with
  | nil =>
    intro out _
    simp [GetEvents.items, retainedEvents]
  | cons item rest ih =>
    intro out h
    have hrest : ∀ i ∈ rest, retained i = true →
        (∃ t, parse i.Start.DateTime = .ok t) ∧ (∃ t, parse i.End.DateTime = .ok t) :=
      fun i hi => h i (List.mem_cons_of_mem _ hi)
    by_cases h1 : item.Status = "cancelled"
    · have hr : retained item = false := by simp [retained, h1]
      rw [GetEvents.items, if_pos h1, ih out hrest]
      simp [retainedEvents, List.filter_cons, hr]
    · by_cases h2 : item.Start.DateTime = ""
      · have hr : retained item = false := by simp [retained, h2]
        rw [GetEvents.items, if_neg h1, if_pos h2, ih out hrest]
        simp [retainedEvents, List.filter_cons, hr]
      · have hr : retained item = true := by simp [retained, h1, h2]
        obtain ⟨⟨ts, hs⟩, ⟨te, he⟩⟩ := h item (List.mem_cons_self _ _) hr
        rw [GetEvents.items, if_neg h1, if_neg h2]
        simp only [hs, he]
        rw [ih _ hrest]
        simp [retainedEvents, List.filter_cons, hr, parsed, hs, he]

/-! ## Lemmas on traces -/

theorem commands_append (a b : List Entry) : commands (a ++ b) = commands a ++ commands b := by
  induction a with
  | nil => rfl
  | cons x rest ih => cases x <;> simp [commands, ih]

theorem collabCalls_append (a b : List Entry) :
    collabCalls (a ++ b) = collabCalls a + collabCalls b := by
  induction a with
  | nil => simp [collabCalls]
  | cons x rest ih => cases x <;> simp [collabCalls, ih] <;> omega

theorem wfTrace_append (env : Env) (a b : List Entry) (ha : wfTrace env a) (hb : wfTrace env b) :
    wfTrace env (a ++ b) := by
  induction a with
  | nil => simpa using hb
  | cons x rest ih =>
    cases x with
    | selectWait t d w =>
      obtain ⟨h1, ⟨rest', h2⟩, h3⟩ := ha
      exact ⟨h1, ⟨rest' ++ b, by rw [h2]; rfl⟩, ih h3⟩
    | ctxErr t c => exact ⟨ha.1, ih ha.2⟩
    | sleep t d => exact ih ha
    | getEvents t st d id => exact ih ha
    | callService t action data => exact ih ha

theorem wfTrace_tail (env : Env) (x : Entry) (rest : List Entry) (h : wfTrace env (x :: rest)) :
    wfTrace env rest := by
  cases x with
  | selectWait t d w => exact h.2.2
  | ctxErr t c => exact h.2
  | sleep t d => exact h
  | getEvents t st d id => exact h
  | callService t action data => exact h

theorem label_cases (m : Int) : label m = "30m" ∨ label m = "60m" := by
  unfold label
  split_ifs
  · exact Or.inr rfl
  · exact Or.inl rfl

theorem setKey_effect (s : State) (h : goodData s) (l : String) :
    setKey s.data "effect" (.str l) = dataOn l := by
  rcases h with h | h | h <;> rw [h] <;> rfl

theorem awaitDone_cases (env : Env) (s : State) (d : Int) :
    (awaitDone env s d = ([], s)) ∨
    (awaitDone env s d = ([.selectWait s.clock d (selectWake env s.clock d)],
      { s with clock := selectWake env s.clock d })) := by
  unfold awaitDone
  split_ifs
  · exact Or.inr rfl
  · exact Or.inl rfl

/-- The guarded wait followed by the test of `ctx.Err()`, then `r`. -/
theorem guarded_spec (env : Env) (s : State) (d : Int) (hs : goodData s) :
    goodData (awaitDone env s d).2 ∧ (awaitDone env s d).2.calls = s.calls ∧
    commands (awaitDone env s d).1 = [] ∧ collabCalls (awaitDone env s d).1 = 0 ∧
    noCancel (awaitDone env s d).1 ∧
    (∀ rest, wfTrace env rest →
      wfTrace env ((awaitDone env s d).1 ++
        .ctxErr (awaitDone env s d).2.clock (cancelled env (awaitDone env s d).2.clock) :: rest)) := by
  rcases awaitDone_cases env s d with h | h <;> rw [h]
  · refine ⟨hs, rfl, rfl, rfl, ?_, ?_⟩
    · intro e he; cases he
    · intro rest hr
      exact ⟨rfl, hr⟩
  · refine ⟨hs, rfl, rfl, rfl, ?_, ?_⟩
    · intro e he
      simp only [List.mem_singleton] at he
      rw [he]; rfl
    · intro rest hr
      exact ⟨rfl, ⟨rest, rfl⟩, rfl, hr⟩

theorem noCancel_append (a b : List Entry) (ha : noCancel a) (hb : noCancel b) :
    noCancel (a ++ b) := by
  intro e he
  rcases List.mem_append.1 he with h | h
  · exact ha e h
  · exact hb e h

theorem noCancel_cons (x : Entry) (tr : List Entry) (hx : isCancel x = false) (h : noCancel tr) :
    noCancel (x :: tr) := by
  intro e he
  rcases List.mem_cons.1 he with h1 | h1
  · rw [h1]; exact hx
  · exact h e h1

/-- Entries that observe no cancellation and call no collaborator may be put
in front of a trace. -/
theorem FlowOK_front (calls : Nat) (pre tr : List Entry) (f : Flow) (h1 : noCancel pre)
    (h2 : collabCalls pre = 0) (h : FlowOK calls tr f) : FlowOK calls (pre ++ tr) f := by
  cases f with
  | next s =>
    obtain ⟨a, b, c⟩ := h
    exact ⟨noCancel_append _ _ h1 a, b, by rw [collabCalls_append, h2, c]; omega⟩
  | brk s =>
    obtain ⟨⟨tr0, a0, a1⟩, b, c⟩ := h
    refine ⟨⟨pre ++ tr0, by rw [a0, List.append_assoc], noCancel_append _ _ h1 a1⟩, b, ?_⟩
    rw [collabCalls_append, h2, c]; omega
  | ret err => exact noCancel_append _ _ h1 h

/-- A collaborator call may be put in front of a trace. -/
theorem FlowOK_call (calls : Nat) (x : Entry) (tr : List Entry) (f : Flow)
    (h1 : isCancel x = false) (h2 : collabCalls [x] = 1) (h : FlowOK (calls + 1) tr f) :
    FlowOK calls (x :: tr) f := by
  have hc : collabCalls (x :: tr) = 1 + collabCalls tr := by
    have := collabCalls_append [x] tr
    rw [h2] at this
    exact this
  cases f with
  | next s =>
    obtain ⟨a, b, c⟩ := h
    exact ⟨noCancel_cons _ _ h1 a, b, by rw [hc, c]; omega⟩
  | brk s =>
    obtain ⟨⟨tr0, a0, a1⟩, b, c⟩ := h
    exact ⟨⟨x :: tr0, by rw [a0]; rfl, noCancel_cons _ _ h1 a1⟩, b, by rw [hc, c]; omega⟩
  | ret err => exact noCancel_cons _ _ h1 h

/-- The pattern shared by the three waits of the loop body: the guarded wait,
the test of `ctx.Err()`, then `break` or the rest `k` of the body. -/
theorem guarded_then (env : Env) (s : State) (d : Int) (k : State → List Entry × Flow)
    (hs : goodData s)
    (hk : ∀ s', goodData s' → s'.calls = s.calls →
      wfTrace env (k s').1 ∧ FlowOK s.calls (k s').1 (k s').2) :
    wfTrace env (if cancelled env (awaitDone env s d).2.clock = true then
        ((awaitDone env s d).1 ++ [.ctxErr (awaitDone env s d).2.clock true],
          Flow.brk (awaitDone env s d).2)
      else ((awaitDone env s d).1 ++
          .ctxErr (awaitDone env s d).2.clock false :: (k (awaitDone env s d).2).1,
        (k (awaitDone env s d).2).2)).1 ∧
    FlowOK s.calls (if cancelled env (awaitDone env s d).2.clock = true then
        ((awaitDone env s d).1 ++ [.ctxErr (awaitDone env s d).2.clock true],
          Flow.brk (awaitDone env s d).2)
      else ((awaitDone env s d).1 ++
          .ctxErr (awaitDone env s d).2.clock false :: (k (awaitDone env s d).2).1,
        (k (awaitDone env s d).2).2)).1
      (if cancelled env (awaitDone env s d).2.clock = true then
        ((awaitDone env s d).1 ++ [.ctxErr (awaitDone env s d).2.clock true],
          Flow.brk (awaitDone env s d).2)
      else ((awaitDone env s d).1 ++
          .ctxErr (awaitDone env s d).2.clock false :: (k (awaitDone env s d).2).1,
        (k (awaitDone env s d).2).2)).2 ∧
    commands (if cancelled env (awaitDone env s d).2.clock = true then
        ((awaitDone env s d).1 ++ [.ctxErr (awaitDone env s d).2.clock true],
          Flow.brk (awaitDone env s d).2)
      else ((awaitDone env s d).1 ++
          .ctxErr (awaitDone env s d).2.clock false :: (k (awaitDone env s d).2).1,
        (k (awaitDone env s d).2).2)).1 =
      (if cancelled env (awaitDone env s d).2.clock = true then []
        else commands (k (awaitDone env s d).2).1) := by
  obtain ⟨g1, g2, g3, g4, g5, g6⟩ := guarded_spec env s d hs
  by_cases hc : cancelled env (awaitDone env s d).2.clock = true
  · simp only [if_pos hc]
    refine ⟨?_, ⟨⟨_, rfl, g5⟩, g1, ?_⟩, ?_⟩
    · have := g6 [] trivial
      rw [hc] at this
      exact this
    · rw [g2, collabCalls_append, g4]; rfl
    · rw [commands_append, g3]; rfl
  · simp only [if_neg hc]
    obtain ⟨k1, k2⟩ := hk _ g1 g2
    have hcf : cancelled env (awaitDone env s d).2.clock = false := by
      simpa using hc
    refine ⟨?_, ?_, ?_⟩
    · have := g6 _ k1
      rw [hcf] at this
      exact this
    · have hfront : FlowOK s.calls ([.ctxErr (awaitDone env s d).2.clock false] ++
          (k (awaitDone env s d).2).1) (k (awaitDone env s d).2).2 :=
        FlowOK_front _ _ _ _ (by intro e he; simp only [List.mem_singleton] at he; rw [he]; rfl)
          rfl k2
      exact FlowOK_front _ _ _ _ g5 g4 hfront
    · rw [commands_append, g3]; rfl

theorem holdPhase_spec (env : Env) (s : State) (end_ : Int) (hs : goodData s) :
    wfTrace env (holdPhase env s end_).1 ∧
    FlowOK s.calls (holdPhase env s end_).1 (holdPhase env s end_).2 ∧
    commands (holdPhase env s end_).1 = [] := by
  obtain ⟨h1, h2, h3⟩ := guarded_then env s (wrap64 (Time.Sub end_ s.clock - 10 * Second))
    (fun s' => ([], .next s')) hs
    (fun s' h1 h2 => ⟨trivial, (by intro e he; cases he), h1, by rw [h2]; rfl⟩)
  refine ⟨h1, h2, ?_⟩
  have h4 : commands (holdPhase env s end_).1 = _ := h3
  rw [h4]
  split_ifs <;> rfl

/-- The commands of the signalling step, case by case. -/
theorem signalPhase_commands (env : Env) (s : State) (events : List Event) (hs : goodData s) :
    ((selectEvent events).1 = 0 → commands (signalPhase env s events).1 = []) ∧
    ((selectEvent events).1 ≠ 0 →
      (∀ err, env.postJSON s.calls "light/turn_off" dataOff = some err →
        commands (signalPhase env s events).1 = [("light/turn_off", dataOff)] ∧
        (signalPhase env s events).2 = .ret err) ∧
      (env.postJSON s.calls "light/turn_off" dataOff = none →
        commands (signalPhase env s events).1 =
          [("light/turn_off", dataOff),
            ("light/turn_on", dataOn (label (selectEvent events).1))])) := by
  refine ⟨?_, ?_⟩
  · intro hz
    simp [signalPhase, hz, commands]
  · intro hne
    have hkey := setKey_effect s hs (label (selectEvent events).1)
    refine ⟨?_, ?_⟩
    · intro err hoff
      simp [signalPhase, hne, CallService, hoff, commands]
    · intro hoff
      cases hon : env.postJSON (s.calls + 1) "light/turn_on"
          (dataOn (label (selectEvent events).1)) with
      | some err =>
        simp [signalPhase, hne, CallService, hoff, hkey, hon, commands]
      | none =>
        have hh := (holdPhase_spec env
          ⟨s.clock + env.latency s.calls + env.latency (s.calls + 1), s.calls + 1 + 1,
            dataOn (label (selectEvent events).1)⟩ (selectEvent events).2
          (by rcases label_cases (selectEvent events).1 with h | h <;> rw [h] <;>
                simp [goodData])).2.2
        simp [signalPhase, hne, CallService, hoff, hkey, hon, commands, hh]

theorem signalPhase_spec (env : Env) (s : State) (events : List Event) (hs : goodData s) :
    wfTrace env (signalPhase env s events).1 ∧
    FlowOK s.calls (signalPhase env s events).1 (signalPhase env s events).2 ∧
    CmdsOK (signalPhase env s events).1 := by
  obtain ⟨c1, c2⟩ := signalPhase_commands env s events hs
  have hkey := setKey_effect s hs (label (selectEvent events).1)
  by_cases hz : (selectEvent events).1 = 0
  · refine ⟨?_, ?_, Or.inl (c1 hz)⟩
    · simp [signalPhase, hz, wfTrace]
    · simp only [signalPhase, if_pos hz]
      refine ⟨?_, hs, rfl⟩
      intro e he
      simp only [List.mem_singleton] at he
      rw [he]; rfl
  · obtain ⟨c3, c4⟩ := c2 hz
    cases hoff : env.postJSON s.calls "light/turn_off" dataOff with
    | some err =>
      refine ⟨?_, ?_, Or.inr (Or.inl (c3 err hoff).1)⟩
      · simp [signalPhase, hz, CallService, hoff, wfTrace]
      · simp only [signalPhase, if_neg hz, CallService, hoff]
        intro e he
        simp only [List.mem_singleton] at he
        rw [he]; rfl
    | none =>
      refine ⟨?_, ?_, Or.inr (Or.inr ⟨_, label_cases _, c4 hoff⟩)⟩
      · cases hon : env.postJSON (s.calls + 1) "light/turn_on"
            (dataOn (label (selectEvent events).1)) with
        | some err => simp [signalPhase, hz, CallService, hoff, hkey, hon, wfTrace]
        | none =>
          have hh := (holdPhase_spec env
            ⟨s.clock + env.latency s.calls + env.latency (s.calls + 1), s.calls + 1 + 1,
              dataOn (label (selectEvent events).1)⟩ (selectEvent events).2
            (by rcases label_cases (selectEvent events).1 with h | h <;> rw [h] <;>
                  simp [goodData])).1
          simp only [signalPhase, if_neg hz, CallService, hoff, hkey, hon]
          exact hh
      · cases hon : env.postJSON (s.calls + 1) "light/turn_on"
            (dataOn (label (selectEvent events).1)) with
        | some err =>
          simp only [signalPhase, if_neg hz, CallService, hoff, hkey, hon]
          intro e he
          simp only [List.mem_cons, List.mem_singleton, List.not_mem_nil, or_false] at he
          rcases he with he | he <;> rw [he] <;> rfl
        | none =>
          have hh := (holdPhase_spec env
            ⟨s.clock + env.latency s.calls + env.latency (s.calls + 1), s.calls + 1 + 1,
              dataOn (label (selectEvent events).1)⟩ (selectEvent events).2
            (by rcases label_cases (selectEvent events).1 with h | h <;> rw [h] <;>
                  simp [goodData])).2.1
          simp only [signalPhase, if_neg hz, CallService, hoff, hkey, hon]
          exact FlowOK_call _ _ _ _ rfl rfl (FlowOK_call _ _ _ _ rfl rfl hh)

theorem boundaryPhase_spec (env : Env) (s : State) (boundary : Int) (events : List Event)
    (hs : goodData s) :
    wfTrace env (boundaryPhase env s boundary events).1 ∧
    FlowOK s.calls (boundaryPhase env s boundary events).1
      (boundaryPhase env s boundary events).2 ∧
    CmdsOK (boundaryPhase env s boundary events).1 := by
  obtain ⟨h1, h2, h3⟩ := guarded_then env s (Time.Sub boundary s.clock)
    (fun s' => signalPhase env s' events) hs
    (fun s' g1 g2 => by
      have := signalPhase_spec env s' events g1
      rw [g2] at this
      exact ⟨this.1, this.2.1⟩)
  refine ⟨h1, h2, ?_⟩
  have h4 : commands (boundaryPhase env s boundary events).1 = _ := h3
  unfold CmdsOK
  rw [h4]
  split_ifs
  · exact Or.inl rfl
  · exact (signalPhase_spec env _ events (guarded_spec env s _ hs).1).2.2

theorem pollPhase_spec (env : Env) (cid : String) (s : State) (boundary : Int)
    (hs : goodData s) :
    wfTrace env (pollPhase env cid s boundary).1 ∧
    FlowOK s.calls (pollPhase env cid s boundary).1 (pollPhase env cid s boundary).2 ∧
    CmdsOK (pollPhase env cid s boundary).1 := by
  have hsingle : noCancel [Entry.getEvents s.clock boundary Second cid] := by
    intro e he
    simp only [List.mem_singleton] at he
    rw [he]; rfl
  cases herr : (GetEvents env s boundary Second cid).2.1.2 with
  | some err =>
    simp only [pollPhase, herr]
    exact ⟨trivial, hsingle, Or.inl rfl⟩
  | none =>
    by_cases hlen : (GetEvents env s boundary Second cid).2.1.1.length = 0
    · simp only [pollPhase, herr, if_pos hlen]
      exact ⟨trivial, ⟨hsingle, hs, rfl⟩, Or.inl rfl⟩
    · simp only [pollPhase, herr, if_neg hlen]
      obtain ⟨b1, b2, b3⟩ := boundaryPhase_spec env (GetEvents env s boundary Second cid).2.2
        boundary (GetEvents env s boundary Second cid).2.1.1 hs
      exact ⟨b1, FlowOK_call _ _ _ _ rfl rfl b2, b3⟩

theorem iteration_spec (env : Env) (cid : String) (s : State) (hs : goodData s) :
    wfTrace env (iteration env cid s).1 ∧
    FlowOK s.calls (iteration env cid s).1 (iteration env cid s).2 ∧
    CmdsOK (iteration env cid s).1 := by
  obtain ⟨h1, h2, h3⟩ := guarded_then env s (Time.Sub (nextEarly s.clock) s.clock)
    (fun s' => pollPhase env cid s' (nextRounded s.clock)) hs
    (fun s' g1 g2 => by
      have := pollPhase_spec env cid s' (nextRounded s.clock) g1
      rw [g2] at this
      exact ⟨this.1, this.2.1⟩)
  refine ⟨h1, h2, ?_⟩
  have h4 : commands (iteration env cid s).1 = _ := h3
  unfold CmdsOK
  rw [h4]
  split_ifs
  · exact Or.inl rfl
  · exact (pollPhase_spec env cid _ (nextRounded s.clock) (guarded_spec env s _ hs).1).2.2

/-! ## Lemmas on whole runs -/

theorem Adjacent_off (l : List (String × List (String × Value))) (h : Adjacent l) :
    Adjacent (("light/turn_off", dataOff) :: l) := by
  intro pre p post heq
  cases pre with
  | nil =>
    simp only [List.nil_append, List.cons.injEq, Prod.mk.injEq] at heq
    exact absurd heq.1.1 (by decide)
  | cons x pre2 =>
    simp only [List.cons_append, List.cons.injEq] at heq
    obtain ⟨⟨pre', hp⟩, hl⟩ := h pre2 p post heq.2
    exact ⟨⟨x :: pre', by rw [hp]; rfl⟩, hl⟩

theorem Adjacent_off_on (l : List (String × List (String × Value))) (x : String)
    (hx : x = "30m" ∨ x = "60m") (h : Adjacent l) :
    Adjacent (("light/turn_off", dataOff) :: ("light/turn_on", dataOn x) :: l) := by
  intro pre p post heq
  cases pre with
  | nil =>
    simp only [List.nil_append, List.cons.injEq, Prod.mk.injEq] at heq
    exact absurd heq.1.1 (by decide)
  | cons a pre2 =>
    simp only [List.cons_append, List.cons.injEq] at heq
    cases pre2 with
    | nil =>
      simp only [List.nil_append, List.cons.injEq, Prod.mk.injEq] at heq
      refine ⟨⟨[], by rw [← heq.1]; rfl⟩, ?_⟩
      rw [← heq.2.1.2]
      rcases hx with hx | hx <;> rw [hx]
      · exact Or.inl rfl
      · exact Or.inr rfl
    | cons b pre3 =>
      simp only [List.cons_append, List.cons.injEq] at heq
      obtain ⟨⟨pre', hp⟩, hl⟩ := h pre3 p post heq.2.2
      exact ⟨⟨a :: b :: pre', by rw [hp]; rfl⟩, hl⟩

theorem Adjacent_nil : Adjacent [] := by
  intro pre p post heq
  cases pre <;> simp at heq

/-- The commands of one pass through the body may be put in front. -/
theorem Adjacent_block (tr : List Entry) (l : List (String × List (String × Value)))
    (hb : CmdsOK tr) (h : Adjacent l) : Adjacent (commands tr ++ l) := by
  rcases hb with hb | hb | ⟨x, hx, hb⟩ <;> rw [hb]
  · exact h
  · exact Adjacent_off l h
  · exact Adjacent_off_on l x hx h

theorem loop_spec (env : Env) (cid : String) (fuel : Nat) :
    ∀ s : State, goodData s →
    wfTrace env (loop env cid fuel s).1 ∧ Adjacent (commands (loop env cid fuel s).1) ∧
    CancelShape env s.calls (loop env cid fuel s) := by
  induction fuel with
  | zero =>
    intro s _
    refine ⟨trivial, Adjacent_nil, Or.inl ?_⟩
    intro e he
    cases he
  | succ n ih =>
    intro s hs
    by_cases hc : cancelled env s.clock = true
    · simp only [loop, if_pos hc, finish, CallService]
      refine ⟨⟨hc.symm, trivial⟩, Adjacent_off [] Adjacent_nil, Or.inr ⟨[], s.clock, rfl, ?_, rfl⟩⟩
      intro e he
      cases he
    · have hcf : cancelled env s.clock = false := by simpa using hc
      obtain ⟨w1, w2, w3⟩ := iteration_spec env cid s hs
      rcases hit : iteration env cid s with ⟨tr, f⟩
      rw [hit] at w1 w2 w3
      simp only at w1 w2 w3
      have hfalse : isCancel (Entry.ctxErr s.clock false) = false := rfl
      cases f with
      | next s' =>
        obtain ⟨f1, f2, f3⟩ := w2
        obtain ⟨i1, i2, i3⟩ := ih s' f2
        simp only [loop, if_neg hc, hit]
        refine ⟨⟨hcf.symm, wfTrace_append env _ _ w1 i1⟩, ?_, ?_⟩
        · have : commands (Entry.ctxErr s.clock false :: tr ++ (loop env cid n s').1) =
              commands tr ++ commands (loop env cid n s').1 := by
            rw [← commands_append]; rfl
          rw [this]
          exact Adjacent_block tr _ w3 i2
        · rcases i3 with i3 | ⟨tr0, t, e1, e2, e3⟩
          · exact Or.inl (noCancel_cons _ _ hfalse (noCancel_append _ _ f1 i3))
          · refine Or.inr ⟨Entry.ctxErr s.clock false :: tr ++ tr0, t, ?_, ?_, ?_⟩
            · simp only [e1]
              simp
            · exact noCancel_cons _ _ hfalse (noCancel_append _ _ f1 e2)
            · simp only [e3]
              have : collabCalls (Entry.ctxErr s.clock false :: tr ++ tr0) =
                  collabCalls tr + collabCalls tr0 := by
                rw [← collabCalls_append]; rfl
              rw [this, f3, Nat.add_assoc]
      | brk s' =>
        obtain ⟨⟨tr0, f0, f1⟩, _, f3⟩ := w2
        simp only [loop, if_neg hc, hit, finish, CallService]
        refine ⟨⟨hcf.symm, wfTrace_append env _ _ w1 trivial⟩, ?_, ?_⟩
        · have : commands (Entry.ctxErr s.clock false :: tr ++
              [Entry.callService s'.clock "light/turn_off" dataOff]) =
              commands tr ++ [("light/turn_off", dataOff)] := by
            show commands (tr ++ [Entry.callService s'.clock "light/turn_off" dataOff]) = _
            rw [commands_append]
            rfl
          rw [this]
          exact Adjacent_block tr _ w3 (Adjacent_off [] Adjacent_nil)
        · refine Or.inr ⟨Entry.ctxErr s.clock false :: tr0, s'.clock, ?_, ?_, ?_⟩
          · simp only [f0]
            simp
          · exact noCancel_cons _ _ hfalse f1
          · have h1 : collabCalls tr = collabCalls tr0 := by
              rw [f0, collabCalls_append]; rfl
            have h2 : collabCalls (Entry.ctxErr s.clock false :: tr0) = collabCalls tr0 := rfl
            rw [h2, ← h1, f3]
      | ret err =>
        simp only [loop, if_neg hc, hit]
        refine ⟨⟨hcf.symm, w1⟩, ?_, Or.inl (noCancel_cons _ _ hfalse w2)⟩
        have : commands (Entry.ctxErr s.clock false :: tr) = commands tr ++ [] := by
          rw [List.append_nil]; rfl
        rw [this]
        exact Adjacent_block tr _ w3 Adjacent_nil

theorem runLoop_spec (env : Env) (cid : String) (fuel : Nat) (start : Int) :
    wfTrace env (runLoop env cid fuel start).1 ∧
    Adjacent (commands (runLoop env cid fuel start).1) ∧
    CancelShape env 0 (runLoop env cid fuel start) := by
  have hcall : noCancel [Entry.callService start "light/turn_off" dataOff] := by
    intro e he
    simp only [List.mem_singleton] at he
    rw [he]; rfl
  cases hoff : env.postJSON 0 "light/turn_off" dataOff with
  | some err =>
    simp only [runLoop, CallService, hoff]
    exact ⟨trivial, Adjacent_off [] Adjacent_nil, Or.inl hcall⟩
  | none =>
    obtain ⟨i1, i2, i3⟩ := loop_spec env cid fuel
      ⟨start + env.latency 0, 0 + 1, dataInit⟩ (Or.inl rfl)
    simp only [runLoop, CallService, hoff]
    refine ⟨i1, Adjacent_off _ i2, ?_⟩
    rcases i3 with i3 | ⟨tr0, t, e1, e2, e3⟩
    · exact Or.inl (noCancel_cons _ _ rfl i3)
    · refine Or.inr ⟨Entry.callService start "light/turn_off" dataOff :: tr0, t, ?_, ?_, ?_⟩
      · simp only [e1]
        simp
      · exact noCancel_cons _ _ rfl e2
      · simp only [e3]
        have : collabCalls (Entry.callService start "light/turn_off" dataOff :: tr0) =
            0 + 1 + collabCalls tr0 := by
          simp [collabCalls]; omega
        rw [this]
        simp

/-- A trace of the shape `CancelShape` describes splits at an observed
cancellation in one way only. -/
theorem cancel_split (tr0 : List Entry) (t : Int) (x : Entry) (h0 : noCancel tr0)
    (hx : isCancel x = false) :
    ∀ (pre post : List Entry) (t' : Int),
      tr0 ++ [.ctxErr t true, x] = pre ++ .ctxErr t' true :: post →
      pre = tr0 ∧ t' = t ∧ post = [x] := by
  induction tr0 with
  | nil =>
    intro pre post t' heq
    cases pre with
    | nil =>
      simp only [List.nil_append, List.cons.injEq, Entry.ctxErr.injEq] at heq
      exact ⟨rfl, heq.1.1.symm, heq.2.symm⟩
    | cons a pre2 =>
      simp only [List.nil_append, List.cons_append, List.cons.injEq] at heq
      cases pre2 with
      | nil =>
        simp only [List.nil_append, List.cons.injEq] at heq
        rw [heq.2.1] at hx
        exact absurd hx (by simp [isCancel])
      | cons b pre3 =>
        simp at heq
  | cons a rest ih =>
    intro pre post t' heq
    cases pre with
    | nil =>
      simp only [List.nil_append, List.cons_append, List.cons.injEq] at heq
      have := h0 a (List.mem_cons_self _ _)
      rw [heq.1] at this
      exact absurd this (by simp [isCancel])
    | cons b pre2 =>
      simp only [List.cons_append, List.cons.injEq] at heq
      obtain ⟨e1, e2, e3⟩ := ih (fun e he => h0 e (List.mem_cons_of_mem _ he)) pre2 post t' heq.2
      exact ⟨by rw [heq.1, e1], e2, e3⟩

theorem wfTrace_split_wait (env : Env) (pre : List Entry) :
    ∀ (tr post : List Entry) (t d w : Int), wfTrace env tr →
      tr = pre ++ .selectWait t d w :: post →
      w = selectWake env t d ∧ ∃ post', post = .ctxErr w (cancelled env w) :: post' := by
  induction pre with
  | nil =>
    intro tr post t d w h heq
    rw [heq] at h
    exact ⟨h.1, h.2.1⟩
  | cons x rest ih =>
    intro tr post t d w h heq
    rw [heq] at h
    exact ih _ post t d w (wfTrace_tail env x _ h) rfl

theorem wfTrace_split_check (env : Env) (pre : List Entry) :
    ∀ (tr post : List Entry) (t : Int) (b : Bool), wfTrace env tr →
      tr = pre ++ .ctxErr t b :: post → b = cancelled env t := by
  induction pre with
  | nil =>
    intro tr post t b h heq
    rw [heq] at h
    exact h.1
  | cons x rest ih =>
    intro tr post t b h heq
    rw [heq] at h
    exact ih _ post t b (wfTrace_tail env x _ h) rfl

/-- An observed cancellation in a run is followed by one `light/turn_off`,
whose result the run returns. -/
theorem runLoop_cancel (env : Env) (cid : String) (fuel : Nat) (start : Int)
    (pre post : List Entry) (t : Int)
    (h : (runLoop env cid fuel start).1 = pre ++ .ctxErr t true :: post) :
    post = [.callService t "light/turn_off" dataOff] ∧
    (runLoop env cid fuel start).2 =
      .returned (env.postJSON (collabCalls pre) "light/turn_off" dataOff) := by
  obtain ⟨_, _, h3⟩ := runLoop_spec env cid fuel start
  rcases h3 with h3 | ⟨tr0, t0, e1, e2, e3⟩
  · have := h3 (.ctxErr t true) (by rw [h]; simp)
    exact absurd this (by simp [isCancel])
  · rw [e1] at h
    obtain ⟨p1, p2, p3⟩ := cancel_split tr0 t0
      (.callService t0 "light/turn_off" dataOff) e2 rfl pre post t h
    rw [p1, p2, p3, e3]
    simp

/-! ## C1 -/

/-- C1: for every instant `now`, the boundary of `runLoop` is an exact multiple
of 30 minutes from the zero time and lies in `[now, now + 30m]`, the early
instant is the boundary minus 10 seconds, and on any day 14:03:00 gives the
boundary 14:30:00 and the early instant 14:29:50. -/
theorem C1_boundary (now : Int) :
    (∃ k : Int, nextRounded now = k * (30 * Minute)) ∧
    now ≤ nextRounded now ∧ nextRounded now ≤ now + 30 * Minute ∧
    nextEarly now = nextRounded now - 10 * Second ∧
    (∀ day : Int, nextRounded (clockAt day 14 3 0) = clockAt day 14 30 0 ∧
      nextEarly (clockAt day 14 3 0) = clockAt day 14 29 50) := by
  have hP : (30 * Minute : Int) = 1800000000000 := by norm_num [Minute, Second]
  have hS : (10 * Second : Int) = 10000000000 := by norm_num [Second]
  have key : ∀ t : Int, nextRounded t =
      if t % 1800000000000 = 0 then t else t - t % 1800000000000 + 1800000000000 := by
    intro t
    have h0 := Int.emod_nonneg t (show (1800000000000 : Int) ≠ 0 by norm_num)
    have h1 := Int.emod_lt_of_pos t (show (0 : Int) < 1800000000000 by norm_num)
    simp only [nextRounded, Time.Round, Time.Before, Time.Add, div, lessThanHalf, hP]
    by_cases hz : t % 1800000000000 = 0
    · simp [hz]
    · by_cases hh : t % 1800000000000 + t % 1800000000000 < 1800000000000
      · have hb : t + -(t % 1800000000000) < t := by omega
        simp only [hz, if_false, hh, decide_True, if_true, hb]
        norm_num
        omega
      · have hb : ¬ (t + (1800000000000 - t % 1800000000000) < t) := by omega
        simp only [hz, if_false, hh, decide_False, hb]
        norm_num
        omega
  have h0 := Int.emod_nonneg now (show (1800000000000 : Int) ≠ 0 by norm_num)
  have h1 := Int.emod_lt_of_pos now (show (0 : Int) < 1800000000000 by norm_num)
  have hk := key now
  refine ⟨?_, ?_, ?_, ?_, ?_⟩
  · rw [hP]
    by_cases hz : now % 1800000000000 = 0
    · rw [if_pos hz] at hk
      exact ⟨now / 1800000000000, by omega⟩
    · rw [if_neg hz] at hk
      exact ⟨now / 1800000000000 + 1, by omega⟩
  · by_cases hz : now % 1800000000000 = 0
    · rw [if_pos hz] at hk; omega
    · rw [if_neg hz] at hk; omega
  · rw [hP]
    by_cases hz : now % 1800000000000 = 0
    · rw [if_pos hz] at hk; omega
    · rw [if_neg hz] at hk; omega
  · simp only [nextEarly, Time.Add]
    ring
  · intro day
    have hc : nextRounded (clockAt day 14 3 0) = clockAt day 14 30 0 := by
      rw [key]
      simp only [clockAt, Second]
      have hz : ¬ ((((day * 24 + 14) * 60 + 3) * 60 + 0) * 1000000000 % 1800000000000 = 0) := by
        omega
      rw [if_neg hz]
      omega
    refine ⟨hc, ?_⟩
    simp only [nextEarly, Time.Add, hc, hS]
    simp only [clockAt, Second]
    ring

/-! ## C2 -/

/-- C2: for every list of events the duration selected by the scan is zero
exactly when no event has a duration `d` with `0 < d <= 1 hour`, and otherwise
it is the duration of one such event and at least the duration of every such
event; when it is zero the signalling step calls no actuator command; there is
no selection for the empty list (the loop body is left without any actuator
command) and none for a list holding a single 90 minute event. -/
theorem C2_selected_duration (events : List Event) :
    ((selectEvent events).1 = 0 ↔
      ∀ x ∈ events, ¬ (0 < x.end_ - x.start ∧ x.end_ - x.start ≤ Hour)) ∧
    ((selectEvent events).1 ≠ 0 →
      ∃ x ∈ events, x.end_ - x.start = (selectEvent events).1 ∧
        0 < x.end_ - x.start ∧ x.end_ - x.start ≤ Hour) ∧
    (∀ x ∈ events, 0 < x.end_ - x.start → x.end_ - x.start ≤ Hour →
      x.end_ - x.start ≤ (selectEvent events).1) ∧
    (∀ (env : Env) (s : State), (selectEvent events).1 = 0 →
      commands (signalPhase env s events).1 = []) ∧
    (selectEvent []).1 = 0 ∧
    (∀ (env : Env) (cid : String) (s : State) (boundary : Int),
      (GetEvents env s boundary Second cid).2.1 = ([], none) →
      commands (pollPhase env cid s boundary).1 = [] ∧
        ∃ s', (pollPhase env cid s boundary).2 = .next s') ∧
    (∀ (summary status : String) (start : Int),
      (selectEvent [⟨summary, status, start, start + 90 * Minute⟩]).1 = 0) := by
  have hH : (0 : Int) ≤ Hour := by rw [Hour_eq]; norm_num
  obtain ⟨i1, i2, i3, _, i5⟩ := scan_spec events 0 0 (le_refl 0) hH
  have hex : (selectEvent events).1 ≠ 0 →
      ∃ x ∈ events, x.end_ - x.start = (selectEvent events).1 ∧
        0 < x.end_ - x.start ∧ x.end_ - x.start ≤ Hour := by
    intro hne
    have hpos : 0 < (scan events 0 0).1 := lt_of_le_of_ne i1 (Ne.symm hne)
    obtain ⟨pre, x, post, h1, h2, _, _⟩ := i5 hpos
    refine ⟨x, by rw [h1]; simp, h2, ?_, ?_⟩
    · rw [h2]; exact hpos
    · rw [h2]; exact i2
  refine ⟨⟨?_, ?_⟩, hex, i3, ?_, rfl, ?_, ?_⟩
  · intro hz x hx hw
    have := i3 x hx hw.1 hw.2
    have hz2 : (scan events 0 0).1 = 0 := hz
    omega
  · intro hall
    by_contra hne
    obtain ⟨x, hx, _, h2, h3⟩ := hex hne
    exact hall x hx ⟨h2, h3⟩
  · intro env s hz
    simp [signalPhase, hz, commands]
  · intro env cid s boundary hq
    simp [pollPhase, hq, commands]
  · intro summary status start
    rw [selectEvent_single summary status start (90 * Minute)
      (by norm_num [minDuration, Minute, Second]) (by norm_num [maxDuration, Minute, Second])]
    norm_num [Hour, Minute, Second]

/-- C2, at a list of two meetings of 20 and 45 minutes and one of 90. -/
theorem C2_selected_duration_witness :
    (selectEvent [⟨"a", "confirmed", 0, 20 * Minute⟩, ⟨"b", "confirmed", 0, 90 * Minute⟩,
      ⟨"c", "confirmed", 0, 45 * Minute⟩]).1 = 45 * Minute ∧
    ∃ x ∈ [(⟨"a", "confirmed", 0, 20 * Minute⟩ : Event), ⟨"b", "confirmed", 0, 90 * Minute⟩,
        ⟨"c", "confirmed", 0, 45 * Minute⟩],
      x.end_ - x.start = (selectEvent [⟨"a", "confirmed", 0, 20 * Minute⟩,
        ⟨"b", "confirmed", 0, 90 * Minute⟩, ⟨"c", "confirmed", 0, 45 * Minute⟩]).1 ∧
      0 < x.end_ - x.start ∧ x.end_ - x.start ≤ Hour :=
  ⟨by decide, (C2_selected_duration _).2.1 (by decide)⟩

/-! ## C3 -/

/-- C3: for every selected duration `d` (`0 < d <= 60m`) the label is "30m"
when `d <= 30m` and "60m" when `d > 30m`; the signalling step sends
`light/turn_on` only for a selected duration in that range and with the label
of that duration; in every run every `light/turn_on` carries the effect "30m"
or "60m"; a single event of exactly 30 minutes gives "30m", of 31 minutes
"60m", and of 61 minutes no selection. -/
theorem C3_effect_label :
    (∀ d : Int, 0 < d → d ≤ Hour →
      (d ≤ 30 * Minute → label d = "30m") ∧ (30 * Minute < d → label d = "60m")) ∧
    (∀ (env : Env) (s : State) (events : List Event) (p : List (String × Value)),
      goodData s → ("light/turn_on", p) ∈ commands (signalPhase env s events).1 →
      0 < (selectEvent events).1 ∧ (selectEvent events).1 ≤ Hour ∧
        p = dataOn (label (selectEvent events).1)) ∧
    (∀ (env : Env) (cid : String) (fuel : Nat) (start : Int) (p : List (String × Value)),
      ("light/turn_on", p) ∈ commands (runLoop env cid fuel start).1 →
      p = dataOn "30m" ∨ p = dataOn "60m") ∧
    (∀ (summary status : String) (start : Int),
      selectEvent [⟨summary, status, start, start + 30 * Minute⟩] =
        (30 * Minute, start + 30 * Minute) ∧ label (30 * Minute) = "30m") ∧
    (∀ (summary status : String) (start : Int),
      selectEvent [⟨summary, status, start, start + 31 * Minute⟩] =
        (31 * Minute, start + 31 * Minute) ∧ label (31 * Minute) = "60m") ∧
    (∀ (summary status : String) (start : Int),
      (selectEvent [⟨summary, status, start, start + 61 * Minute⟩]).1 = 0) := by
  refine ⟨?_, ?_, ?_, ?_, ?_, ?_⟩
  · intro d _ _
    unfold label
    constructor
    · intro h
      rw [if_neg (not_lt.2 h)]
    · intro h
      rw [if_pos h]
  · intro env s events p hs hmem
    have hH : (0 : Int) ≤ Hour := by rw [Hour_eq]; norm_num
    obtain ⟨i1, i2, _, _, _⟩ := scan_spec events 0 0 (le_refl 0) hH
    obtain ⟨c1, c2⟩ := signalPhase_commands env s events hs
    by_cases hz : (selectEvent events).1 = 0
    · rw [c1 hz] at hmem
      cases hmem
    · obtain ⟨c3, c4⟩ := c2 hz
      have hpos : 0 < (selectEvent events).1 := lt_of_le_of_ne i1 (Ne.symm hz)
      cases hoff : env.postJSON s.calls "light/turn_off" dataOff with
      | some err =>
        rw [(c3 err hoff).1] at hmem
        simp only [List.mem_singleton, Prod.mk.injEq] at hmem
        exact absurd hmem.1 (by decide)
      | none =>
        rw [c4 hoff] at hmem
        simp only [List.mem_cons, Prod.mk.injEq, List.mem_singleton, List.not_mem_nil,
          or_false] at hmem
        rcases hmem with hmem | hmem
        · exact absurd hmem.1 (by decide)
        · exact ⟨hpos, i2, hmem.2⟩
  · intro env cid fuel start p hmem
    obtain ⟨_, hadj, _⟩ := runLoop_spec env cid fuel start
    obtain ⟨pre, post, heq⟩ := List.append_of_mem hmem
    exact (hadj pre p post heq).2
  · intro summary status start
    rw [selectEvent_single summary status start (30 * Minute)
      (by norm_num [minDuration, Minute, Second]) (by norm_num [maxDuration, Minute, Second])]
    refine ⟨?_, by decide⟩
    rw [if_pos (by norm_num [Hour, Minute, Second])]
  · intro summary status start
    rw [selectEvent_single summary status start (31 * Minute)
      (by norm_num [minDuration, Minute, Second]) (by norm_num [maxDuration, Minute, Second])]
    refine ⟨?_, by decide⟩
    rw [if_pos (by norm_num [Hour, Minute, Second])]
  · intro summary status start
    rw [selectEvent_single summary status start (61 * Minute)
      (by norm_num [minDuration, Minute, Second]) (by norm_num [maxDuration, Minute, Second])]
    rw [if_neg (by norm_num [Hour, Minute, Second])]

/-- C3, at a meeting of 45 minutes and at the run that signals a meeting from
14:30 to 14:50. -/
theorem C3_effect_label_witness :
    label (45 * Minute) = "60m" ∧
    (dataOn "30m" = dataOn "30m" ∨ dataOn "30m" = dataOn "60m") :=
  ⟨(C3_effect_label.1 (45 * Minute) (by decide) (by decide)).2 (by decide),
    C3_effect_label.2.2.1 envMeeting "primary" 1 (clockAt 0 14 3 0) (dataOn "30m") (by decide)⟩

/-! ## C4 -/

/-- C4, as the code has it: in every run every `light/turn_on` of the trace of
commands comes right after a `light/turn_off` and carries the effect "30m" or
"60m"; one pass through the loop body issues no command, or `light/turn_off`
alone, or `light/turn_off` then `light/turn_on`; the signalling step issues no
command when no event is selected and, for a selected event, exactly
`[turn_off, turn_on]` with the label of the selected duration when the
`light/turn_off` call succeeds, and `light/turn_off` alone, returning its
error, when that call fails. -/
theorem C4_off_before_on (env : Env) (cid : String) :
    (∀ (fuel : Nat) (start : Int) (pre post : List (String × List (String × Value)))
        (p : List (String × Value)),
      commands (runLoop env cid fuel start).1 = pre ++ ("light/turn_on", p) :: post →
      (∃ pre', pre = pre' ++ [("light/turn_off", dataOff)]) ∧
        (p = dataOn "30m" ∨ p = dataOn "60m")) ∧
    (∀ s : State, goodData s →
      commands (iteration env cid s).1 = [] ∨
      commands (iteration env cid s).1 = [("light/turn_off", dataOff)] ∨
      ∃ l, (l = "30m" ∨ l = "60m") ∧ commands (iteration env cid s).1 =
        [("light/turn_off", dataOff), ("light/turn_on", dataOn l)]) ∧
    (∀ (s : State) (events : List Event), goodData s →
      ((selectEvent events).1 = 0 → commands (signalPhase env s events).1 = []) ∧
      ((selectEvent events).1 ≠ 0 →
        (∀ err, env.postJSON s.calls "light/turn_off" dataOff = some err →
          commands (signalPhase env s events).1 = [("light/turn_off", dataOff)] ∧
          (signalPhase env s events).2 = .ret err) ∧
        (env.postJSON s.calls "light/turn_off" dataOff = none →
          commands (signalPhase env s events).1 =
            [("light/turn_off", dataOff),
              ("light/turn_on", dataOn (label (selectEvent events).1))]))) := by
  refine ⟨?_, ?_, ?_⟩
  · intro fuel start pre post p h
    exact (runLoop_spec env cid fuel start).2.1 pre p post h
  · intro s hs
    exact (iteration_spec env cid s hs).2.2
  · intro s events hs
    exact signalPhase_commands env s events hs

/-- C4, at the pass that signals a meeting from 14:30 to 14:50. -/
theorem C4_off_before_on_witness :
    commands (iteration envMeeting "primary" ⟨clockAt 0 14 3 1, 1, dataInit⟩).1 = [] ∨
    commands (iteration envMeeting "primary" ⟨clockAt 0 14 3 1, 1, dataInit⟩).1 =
      [("light/turn_off", dataOff)] ∨
    ∃ l, (l = "30m" ∨ l = "60m") ∧
      commands (iteration envMeeting "primary" ⟨clockAt 0 14 3 1, 1, dataInit⟩).1 =
        [("light/turn_off", dataOff), ("light/turn_on", dataOn l)] :=
  (C4_off_before_on envMeeting "primary").2.1 ⟨clockAt 0 14 3 1, 1, dataInit⟩ (Or.inl rfl)

/-- C4 as stated fails: a meeting from 14:30 to 14:50 is selected (20 minutes),
the `light/turn_off` sent for it fails, and the pass issues that command alone,
`runLoop` returning the error; no `light/turn_on` follows. -/
theorem C4_turn_off_alone :
    (selectEvent [⟨"meeting", "confirmed", clockAt 0 14 30 0, clockAt 0 14 50 0⟩]).1 =
      20 * Minute ∧
    iteration envFail "primary" ⟨clockAt 0 14 3 1, 1, dataInit⟩ =
      ([.selectWait (clockAt 0 14 3 1) (clockAt 0 0 26 49) (clockAt 0 14 29 50),
        .ctxErr (clockAt 0 14 29 50) false,
        .getEvents (clockAt 0 14 29 50) (clockAt 0 14 30 0) Second "primary",
        .selectWait (clockAt 0 14 29 51) (clockAt 0 0 0 9) (clockAt 0 14 30 0),
        .ctxErr (clockAt 0 14 30 0) false,
        .callService (clockAt 0 14 30 0) "light/turn_off" dataOff],
       .ret "connection refused") ∧
    commands (iteration envFail "primary" ⟨clockAt 0 14 3 1, 1, dataInit⟩).1 =
      [("light/turn_off", dataOff)] ∧
    (¬ ∃ l, commands (iteration envFail "primary" ⟨clockAt 0 14 3 1, 1, dataInit⟩).1 =
      [("light/turn_off", dataOff), ("light/turn_on", dataOn l)]) ∧
    runLoop envFail "primary" 1 (clockAt 0 14 3 0) =
      ([.callService (clockAt 0 14 3 0) "light/turn_off" dataOff,
        .ctxErr (clockAt 0 14 3 1) false,
        .selectWait (clockAt 0 14 3 1) (clockAt 0 0 26 49) (clockAt 0 14 29 50),
        .ctxErr (clockAt 0 14 29 50) false,
        .getEvents (clockAt 0 14 29 50) (clockAt 0 14 30 0) Second "primary",
        .selectWait (clockAt 0 14 29 51) (clockAt 0 0 0 9) (clockAt 0 14 30 0),
        .ctxErr (clockAt 0 14 30 0) false,
        .callService (clockAt 0 14 30 0) "light/turn_off" dataOff],
       .returned (some "connection refused")) := by
  have hc : commands (iteration envFail "primary" ⟨clockAt 0 14 3 1, 1, dataInit⟩).1 =
      [("light/turn_off", dataOff)] := by decide
  refine ⟨by decide, by decide, hc, ?_, by decide⟩
  rintro ⟨l, hl⟩
  rw [hc] at hl
  simp at hl

/-! ## C5 -/

/-- C5: in every run of `runLoop` (those in which no collaborator call fails
among them), every test of `ctx.Err()` reports whether the context is
cancelled at that instant; when a test observes the cancellation, at the top
of an iteration or after a wait, what follows in the trace is exactly one
`light/turn_off` and the run returns the result of that command; and a wait
(before the early instant, before the boundary, or for the end of the meeting)
during which the context is or gets cancelled returns at the cancellation, is
followed by the test that observes it, then by that single `light/turn_off`,
with no other calendar or actuator call. -/
theorem C5_cancellation (env : Env) (cid : String) (fuel : Nat) (start : Int) :
    (∀ (pre post : List Entry) (t : Int) (b : Bool),
      (runLoop env cid fuel start).1 = pre ++ .ctxErr t b :: post → b = cancelled env t) ∧
    (∀ (pre post : List Entry) (t : Int),
      (runLoop env cid fuel start).1 = pre ++ .ctxErr t true :: post →
      post = [.callService t "light/turn_off" dataOff] ∧
      (runLoop env cid fuel start).2 =
        .returned (env.postJSON (collabCalls pre) "light/turn_off" dataOff)) ∧
    (∀ (pre post : List Entry) (t d w c : Int),
      (runLoop env cid fuel start).1 = pre ++ .selectWait t d w :: post →
      env.cancelAt = some c → c < t + d →
      w = max t c ∧
      post = [.ctxErr w true, .callService w "light/turn_off" dataOff] ∧
      (runLoop env cid fuel start).2 =
        .returned (env.postJSON (collabCalls pre) "light/turn_off" dataOff)) := by
  obtain ⟨hwf, _, _⟩ := runLoop_spec env cid fuel start
  refine ⟨?_, ?_, ?_⟩
  · intro pre post t b h
    exact wfTrace_split_check env pre _ post t b hwf h
  · intro pre post t h
    exact runLoop_cancel env cid fuel start pre post t h
  · intro pre post t d w c h hc hlt
    obtain ⟨hw, post', hp⟩ := wfTrace_split_wait env pre _ post t d w hwf h
    have hw2 : w = max t c := by
      rw [hw]
      simp only [selectWake, hc, if_pos hlt]
      split_ifs with h1
      · exact (max_eq_left h1).symm
      · exact (max_eq_right (le_of_lt (not_le.1 h1))).symm
    have hcan : cancelled env w = true := by
      simp only [cancelled, hc, decide_eq_true_eq]
      rw [hw2]
      exact le_max_right t c
    rw [hcan] at hp
    have h2 : (runLoop env cid fuel start).1 =
        (pre ++ [.selectWait t d w]) ++ .ctxErr w true :: post' := by
      rw [h, hp]
      simp
    obtain ⟨q1, q2⟩ := runLoop_cancel env cid fuel start _ post' w h2
    refine ⟨hw2, by rw [hp, q1], ?_⟩
    rw [q2, collabCalls_append]
    rfl

/-- C5, at a run cancelled at 14:40:00 while it waits for the end of a meeting
from 14:30 to 14:50. -/
theorem C5_cancellation_witness :
    clockAt 0 14 40 0 = max (clockAt 0 14 30 2) (clockAt 0 14 40 0) ∧
    [Entry.ctxErr (clockAt 0 14 40 0) true,
      Entry.callService (clockAt 0 14 40 0) "light/turn_off" dataOff] =
      [.ctxErr (clockAt 0 14 40 0) true, .callService (clockAt 0 14 40 0) "light/turn_off" dataOff] ∧
    (runLoop envMeeting "primary" 1 (clockAt 0 14 3 0)).2 = .returned none :=
  (C5_cancellation envMeeting "primary" 1 (clockAt 0 14 3 0)).2.2
    [.callService (clockAt 0 14 3 0) "light/turn_off" dataOff,
      .ctxErr (clockAt 0 14 3 1) false,
      .selectWait (clockAt 0 14 3 1) (clockAt 0 0 26 49) (clockAt 0 14 29 50),
      .ctxErr (clockAt 0 14 29 50) false,
      .getEvents (clockAt 0 14 29 50) (clockAt 0 14 30 0) Second "primary",
      .selectWait (clockAt 0 14 29 51) (clockAt 0 0 0 9) (clockAt 0 14 30 0),
      .ctxErr (clockAt 0 14 30 0) false,
      .callService (clockAt 0 14 30 0) "light/turn_off" dataOff,
      .callService (clockAt 0 14 30 1) "light/turn_on" (dataOn "30m")]
    [.ctxErr (clockAt 0 14 40 0) true, .callService (clockAt 0 14 40 0) "light/turn_off" dataOff]
    (clockAt 0 14 30 2) (clockAt 0 0 19 48) (clockAt 0 14 40 0) (clockAt 0 14 40 0)
    (by decide) (by decide) (by decide)

/-! ## C6 -/

/-- C6 fails on the code: with an empty calendar and calls that take one
second, the query for the boundary 14:30:00 made at 14:29:50 is followed, one
second later and without any wait, by a second query for the same boundary. -/
theorem C6_same_boundary_queried_twice :
    runLoop envQuiet "primary" 2 (clockAt 0 14 3 0) =
      ([.callService (clockAt 0 14 3 0) "light/turn_off" dataOff,
        .ctxErr (clockAt 0 14 3 1) false,
        .selectWait (clockAt 0 14 3 1) (clockAt 0 0 26 49) (clockAt 0 14 29 50),
        .ctxErr (clockAt 0 14 29 50) false,
        .getEvents (clockAt 0 14 29 50) (clockAt 0 14 30 0) Second "primary",
        .ctxErr (clockAt 0 14 29 51) false,
        .ctxErr (clockAt 0 14 29 51) false,
        .getEvents (clockAt 0 14 29 51) (clockAt 0 14 30 0) Second "primary"],
       .running) ∧
    queries (runLoop envQuiet "primary" 12 (clockAt 0 14 3 0)).1 =
      [clockAt 0 14 30 0, clockAt 0 14 30 0, clockAt 0 14 30 0, clockAt 0 14 30 0,
        clockAt 0 14 30 0, clockAt 0 14 30 0, clockAt 0 14 30 0, clockAt 0 14 30 0,
        clockAt 0 14 30 0, clockAt 0 14 30 0, clockAt 0 14 30 0, clockAt 0 15 0 0] := by
  constructor <;> decide

/-! ## C7 -/

/-- C7 fails on the code: the only meeting lasts 90 minutes, so the loop
sleeps 11 seconds from 14:30:00; the context is cancelled at 14:30:03, and the
loop observes it and turns the light off at 14:30:11 only, while the wait
before it, a `select`, would have returned at the cancellation. -/
theorem C7_sleep_outlasts_cancellation :
    envLong.cancelAt = some (clockAt 0 14 30 3) ∧
    selectWake envLong (clockAt 0 14 30 0) (11 * Second) = clockAt 0 14 30 3 ∧
    runLoop envLong "primary" 1 (clockAt 0 14 3 0) =
      ([.callService (clockAt 0 14 3 0) "light/turn_off" dataOff,
        .ctxErr (clockAt 0 14 3 1) false,
        .selectWait (clockAt 0 14 3 1) (clockAt 0 0 26 49) (clockAt 0 14 29 50),
        .ctxErr (clockAt 0 14 29 50) false,
        .getEvents (clockAt 0 14 29 50) (clockAt 0 14 30 0) Second "primary",
        .selectWait (clockAt 0 14 29 51) (clockAt 0 0 0 9) (clockAt 0 14 30 0),
        .ctxErr (clockAt 0 14 30 0) false,
        .sleep (clockAt 0 14 30 0) (11 * Second)],
       .running) ∧
    runLoop envLong "primary" 2 (clockAt 0 14 3 0) =
      ([.callService (clockAt 0 14 3 0) "light/turn_off" dataOff,
        .ctxErr (clockAt 0 14 3 1) false,
        .selectWait (clockAt 0 14 3 1) (clockAt 0 0 26 49) (clockAt 0 14 29 50),
        .ctxErr (clockAt 0 14 29 50) false,
        .getEvents (clockAt 0 14 29 50) (clockAt 0 14 30 0) Second "primary",
        .selectWait (clockAt 0 14 29 51) (clockAt 0 0 0 9) (clockAt 0 14 30 0),
        .ctxErr (clockAt 0 14 30 0) false,
        .sleep (clockAt 0 14 30 0) (11 * Second),
        .ctxErr (clockAt 0 14 30 11) true,
        .callService (clockAt 0 14 30 11) "light/turn_off" dataOff],
       .returned none) := by
  refine ⟨rfl, by decide, by decide, by decide⟩

/-! ## C8 -/

/-- C8 fails on the code: a meeting from 14:00 to 15:00, under way at the
boundary 14:30:00 and answered by the calendar for that boundary, is selected
by the scan (60 minutes, end 15:00:00) although no event of the list starts on
the boundary, and drives `light/turn_on` with the effect "60m". -/
theorem C8_running_event_drives_light :
    selectEvent [⟨"meeting", "confirmed", clockAt 0 14 0 0, clockAt 0 15 0 0⟩] =
      (60 * Minute, clockAt 0 15 0 0) ∧
    selectEvent ([(⟨"meeting", "confirmed", clockAt 0 14 0 0, clockAt 0 15 0 0⟩ : Event)].filter
      fun e => decide (e.start = clockAt 0 14 30 0)) = (0, 0) ∧
    queries (runLoop envRunning "primary" 1 (clockAt 0 14 3 0)).1 = [clockAt 0 14 30 0] ∧
    commands (runLoop envRunning "primary" 1 (clockAt 0 14 3 0)).1 =
      [("light/turn_off", dataOff), ("light/turn_off", dataOff),
        ("light/turn_on", dataOn "60m"), ("light/turn_off", dataOff)] := by
  refine ⟨by decide, by decide, by decide, by decide⟩

/-! ## C9 -/

/-- C9: for every answer of the calendar whose retained items (status not
"cancelled", start date-time not empty) have start and end texts that parse,
`GetEvents` returns without error exactly the retained items in their order,
with summary, status, start and end copied; the answer with the other items
removed gives the same list, and an answer holding only cancelled or all day
items gives the empty list. -/
theorem C9_getEvents_filter (parse : String → Except String Int) (items : List CalendarEvent)
    (h : ∀ item ∈ items, retained item = true →
      (∃ t, parse item.Start.DateTime = .ok t) ∧ (∃ t, parse item.End.DateTime = .ok t)) :
    GetEvents.result parse (.ok items) = (retainedEvents parse items, none) ∧
    GetEvents.result parse (.ok items) = GetEvents.result parse (.ok (items.filter retained)) ∧
    ((∀ item ∈ items, item.Status = "cancelled" ∨ item.Start.DateTime = "") →
      GetEvents.result parse (.ok items) = ([], none)) := by
  have h1 : GetEvents.result parse (.ok items) = (retainedEvents parse items, none) := by
    simp only [GetEvents.result]
    rw [GetEvents.items_spec parse items [] h]
    simp
  have h2 : GetEvents.result parse (.ok (items.filter retained)) =
      (retainedEvents parse items, none) := by
    simp only [GetEvents.result]
    rw [GetEvents.items_spec parse (items.filter retained) []
      (fun i hi => h i (List.mem_of_mem_filter hi))]
    simp [retainedEvents]
  refine ⟨h1, by rw [h1, h2], ?_⟩
  intro hall
  rw [h1]
  have hnil : items.filter retained = [] := by
    rw [List.filter_eq_nil_iff]
    intro i hi
    rcases hall i hi with hc | hc <;> simp [retained, hc]
  simp [retainedEvents, hnil]

/-- C9, at an answer holding a cancelled item, an all day item and a meeting
from 14:30 to 14:50. -/
theorem C9_getEvents_filter_witness :
    GetEvents.result parseExample (.ok
      [⟨"x", "cancelled", ⟨"0001-01-01T14:30:00Z"⟩, ⟨"0001-01-01T15:00:00Z"⟩⟩,
       ⟨"day", "confirmed", ⟨""⟩, ⟨""⟩⟩,
       ⟨"m", "confirmed", ⟨"0001-01-01T14:30:00Z"⟩, ⟨"0001-01-01T14:50:00Z"⟩⟩]) =
      ([⟨"m", "confirmed", clockAt 0 14 30 0, clockAt 0 14 50 0⟩], none) := by
  have hw := (C9_getEvents_filter parseExample
      [⟨"x", "cancelled", ⟨"0001-01-01T14:30:00Z"⟩, ⟨"0001-01-01T15:00:00Z"⟩⟩,
       ⟨"day", "confirmed", ⟨""⟩, ⟨""⟩⟩,
       ⟨"m", "confirmed", ⟨"0001-01-01T14:30:00Z"⟩, ⟨"0001-01-01T14:50:00Z"⟩⟩]
      (by
        intro item hi hr
        simp only [List.mem_cons, List.mem_singleton, List.not_mem_nil, or_false] at hi
        rcases hi with rfl | rfl | rfl
        · exact absurd hr (by decide)
        · exact absurd hr (by decide)
        · exact ⟨⟨clockAt 0 14 30 0, by rfl⟩, ⟨clockAt 0 14 50 0, by rfl⟩⟩)).1
  rw [hw]
  decide

/-! ## C10 -/

/-- C10: when the scan selects a duration, the end instant it records is the
end of the first event of the list whose duration equals the selected maximum,
and after the two commands the signalling step waits on that end: the wait,
when it takes place, lasts `end - now - 10s`. -/
theorem C10_first_maximum_wins (events : List Event) (h : (selectEvent events).1 ≠ 0) :
    ∃ pre x post, events = pre ++ x :: post ∧
      x.end_ - x.start = (selectEvent events).1 ∧
      (∀ y ∈ pre, y.end_ - y.start ≠ (selectEvent events).1) ∧
      (selectEvent events).2 = x.end_ ∧
      (∀ (env : Env) (s : State),
        env.postJSON s.calls "light/turn_off" dataOff = none →
        env.postJSON (s.calls + 1) "light/turn_on"
          (setKey s.data "effect" (.str (label (selectEvent events).1))) = none →
        signalPhase env s events =
          (.callService s.clock "light/turn_off" dataOff ::
            .callService (s.clock + env.latency s.calls) "light/turn_on"
              (setKey s.data "effect" (.str (label (selectEvent events).1))) ::
            (holdPhase env ⟨s.clock + env.latency s.calls + env.latency (s.calls + 1),
              s.calls + 1 + 1, setKey s.data "effect" (.str (label (selectEvent events).1))⟩
              x.end_).1,
           (holdPhase env ⟨s.clock + env.latency s.calls + env.latency (s.calls + 1),
              s.calls + 1 + 1, setKey s.data "effect" (.str (label (selectEvent events).1))⟩
              x.end_).2)) ∧
      (∀ (env : Env) (s2 : State), 0 < x.end_ - s2.clock - 10 * Second →
        x.end_ - s2.clock ≤ maxDuration →
        (holdPhase env s2 x.end_).1 =
          [.selectWait s2.clock (x.end_ - s2.clock - 10 * Second)
              (selectWake env s2.clock (x.end_ - s2.clock - 10 * Second)),
            .ctxErr (selectWake env s2.clock (x.end_ - s2.clock - 10 * Second))
              (cancelled env (selectWake env s2.clock (x.end_ - s2.clock - 10 * Second)))]) := by
  have hH : (0 : Int) ≤ Hour := by rw [Hour_eq]; norm_num
  obtain ⟨i1, _, _, _, i5⟩ := scan_spec events 0 0 (le_refl 0) hH
  have hpos : 0 < (scan events 0 0).1 := lt_of_le_of_ne i1 (Ne.symm h)
  obtain ⟨pre, x, post, h1, h2, h3, h4⟩ := i5 hpos
  refine ⟨pre, x, post, h1, h2, h4, h3.symm, ?_, ?_⟩
  · intro env s hoff hon
    have hsel : (selectEvent events).2 = x.end_ := h3.symm
    simp only [signalPhase, if_neg h, CallService, hoff, hon, hsel]
  · intro env s2 hd hmax
    have hsub : Time.Sub x.end_ s2.clock = x.end_ - s2.clock := by
      have hS : (10 * Second : Int) = 10000000000 := by norm_num [Second]
      rw [hS] at hd
      revert hmax
      unfold Time.Sub maxDuration minDuration
      intro hmax
      split_ifs <;> omega
    have hw : wrap64 (x.end_ - s2.clock - 10 * Second) = x.end_ - s2.clock - 10 * Second := by
      have hS : (10 * Second : Int) = 10000000000 := by norm_num [Second]
      rw [hS] at hd ⊢
      revert hmax
      unfold wrap64 maxDuration
      intro hmax
      omega
    simp only [holdPhase, awaitDone, hsub, hw, if_pos hd]
    split_ifs with hc <;> simp [hc]

/-- C10, at two meetings of 45 minutes ending at different instants. -/
theorem C10_first_maximum_wins_witness :
    ∃ pre x post,
      [(⟨"a", "confirmed", 0, 45 * Minute⟩ : Event), ⟨"b", "confirmed", 15 * Minute, 60 * Minute⟩] =
        pre ++ x :: post ∧
      x.end_ - x.start = (selectEvent [⟨"a", "confirmed", 0, 45 * Minute⟩,
        ⟨"b", "confirmed", 15 * Minute, 60 * Minute⟩]).1 ∧
      (∀ y ∈ pre, y.end_ - y.start ≠ (selectEvent [⟨"a", "confirmed", 0, 45 * Minute⟩,
        ⟨"b", "confirmed", 15 * Minute, 60 * Minute⟩]).1) ∧
      (selectEvent [⟨"a", "confirmed", 0, 45 * Minute⟩,
        ⟨"b", "confirmed", 15 * Minute, 60 * Minute⟩]).2 = x.end_ := by
  obtain ⟨pre, x, post, h1, h2, h3, h4, _⟩ := C10_first_maximum_wins
    [⟨"a", "confirmed", 0, 45 * Minute⟩, ⟨"b", "confirmed", 15 * Minute, 60 * Minute⟩] (by decide)
  exact ⟨pre, x, post, h1, h2, h3, h4⟩

end Meetin
